import Mathlib

/-!
# VehicleTrack Cloud — verification of the backend core

Shallow embedding of `backend/server.js`: the permission state machine
(`updatePermission`), the socket auth middleware, the three realtime event
handlers (`location:update`, `location:request`, `permission:granted`) and
the history range query (`GET /api/history/:vehicleId`).

Modelling conventions:
* The S3 bucket is a collection of JSON documents addressed by string keys.
  The key namespaces used by the backend are disjoint
  (`permissions/vehicle/{v}.json`, `permissions/user/{u}.json`,
  `vehicles/{v}/current.json`, `vehicles/{v}/history/Y/M/D/{ts}.json`), and a
  history key is uniquely determined by the pair `(vehicleId, ts)` (the
  `Y/M/D` components are derived from `ts`); the store is therefore split into
  one finite map per namespace, keyed by the identifying data.
* JavaScript `undefined` for a possibly-missing string field is `Option.none`;
  a template string renders it as the literal string `"undefined"` (`jsStr`).
* Fallible store reads (`getJSON`) return the caller's fallback document.
* `Date.now()` is passed in explicitly as the `now : Nat` argument.
-/

namespace VehicleTrack

/-- A permission document: `{ pending: [], accepted: [] }`, holding counterpart
identities (userIds in a vehicle-keyed document, vehicleIds in a user-keyed
document).  JS arrays are lists; `includes` guards keep them duplicate-free. -/
structure PermDoc where
  pending : List String
  accepted : List String
  deriving Repr, DecidableEq

/-- The fallback document `{ pending: [], accepted: [] }` used by
`getJSON(path, { pending: [], accepted: [] })`. -/
def PermDoc.empty : PermDoc := ⟨[], []⟩

/-- A position report `{ vehicleId, lat, lng, speed, ts }` as assembled by the
`location:update` handler.  `vehicleId` is whatever the device sent (possibly
`undefined`); `ts` is the server stamp. -/
structure PositionReport where
  vehicleId : Option String
  lat : Float
  lng : Float
  speed : Float
  ts : Nat

/-- The S3 bucket contents relevant to the handlers, split by the backend's
disjoint key namespaces (see the module docstring). -/
@[ext]
structure Store where
  vehPerm : String → Option PermDoc
  userPerm : String → Option PermDoc
  current : String → Option PositionReport
  history : String → Nat → Option PositionReport

/-- A bucket with no objects. -/
def Store.empty : Store := ⟨fun _ => none, fun _ => none, fun _ => none, fun _ _ => none⟩

/-- JS string interpolation of a possibly-`undefined` value. -/
def jsStr : Option String → String
  | none => "undefined"
  | some s => s

/-- JS truthiness of a possibly-missing string field (`undefined` and `""` are
falsy). -/
def jsTruthy : Option String → Bool
  | none => false
  | some s => s ≠ ""

/-- Models `getJSON(paths.vehPerm(v), { pending: [], accepted: [] })`. -/
def getVehPerm (st : Store) (v : String) : PermDoc := (st.vehPerm v).getD PermDoc.empty

/-- Models `getJSON(paths.userPerm(u), { pending: [], accepted: [] })`. -/
def getUserPerm (st : Store) (u : String) : PermDoc := (st.userPerm u).getD PermDoc.empty

/-- Models `if (!arr.includes(x)) arr.push(x)`. -/
def pushIfAbsent (l : List String) (x : String) : List String :=
  if x ∈ l then l else l ++ [x]

/-- The per-document mutation of `updatePermission` (both branches are applied
symmetrically to the vehicle document with the userId as counterpart and to
the user document with the vehicleId as counterpart):
`"pending"` pushes the counterpart into `pending` if absent; `"accepted"`
filters the counterpart out of `pending` and pushes it into `accepted` if
absent; any other status leaves the document unchanged. -/
def applyStatusDoc (doc : PermDoc) (counterpart status : String) : PermDoc :=
  if status = "pending" then
    { doc with pending := pushIfAbsent doc.pending counterpart }
  else if status = "accepted" then
    { pending := doc.pending.filter (fun x => x != counterpart),
      accepted := pushIfAbsent doc.accepted counterpart }
  else doc

/-- Models `updatePermission(vehicleId, userId, status)`: read both documents (with
empty fallback), apply the `"pending"` / `"accepted"` branch to each, and write
both documents back. -/
def updatePermission (st : Store) (vehicleId userId status : String) : Store :=
  { st with
    vehPerm := fun k =>
      if k = vehicleId then some (applyStatusDoc (getVehPerm st vehicleId) userId status)
      else st.vehPerm k,
    userPerm := fun k =>
      if k = userId then some (applyStatusDoc (getUserPerm st userId) vehicleId status)
      else st.userPerm k }

/-- A `request`/`grant` call as issued by the event handlers. -/
inductive PermOp
  | request (vehicleId userId : String)
  | grant (vehicleId userId : String)

/-- Run one permission operation (`request` uses status `"pending"`, `grant`
uses status `"accepted"`). -/
def applyOp (st : Store) : PermOp → Store
  | .request v u => updatePermission st v u "pending"
  | .grant v u => updatePermission st v u "accepted"

/-- Run a sequence of permission operations with no interleaving. -/
def applyOps (st : Store) (ops : List PermOp) : Store := ops.foldl applyOp st

/-- The two-document symmetry invariant for one pair `(v, u)`: membership is
identical in the vehicle-keyed and the user-keyed document (both pending, both
accepted, or absent from both). -/
def pairSync (st : Store) (v u : String) : Prop :=
  (u ∈ (getVehPerm st v).pending ↔ v ∈ (getUserPerm st u).pending) ∧
  (u ∈ (getVehPerm st v).accepted ↔ v ∈ (getUserPerm st u).accepted)

instance (st : Store) (v u : String) : Decidable (pairSync st v u) := by
  unfold pairSync; infer_instance

/-! ### Socket auth middleware (`ns.use`) -/

/-- The identity a connection is bound to after passing the auth middleware:
`socket.data = { role: "user", userId }` or `{ role: "device", vehicleId }`. -/
inductive SocketData
  | user (userId : String)
  | device (vehicleId : String)
  deriving Repr, DecidableEq

/-- The payload of a (real or fake) JWT, with its `role`/`sub` fields possibly
missing.  Cryptographic verification (`jwt.verify`) and
base64-decode-plus-JSON-parse are abstracted as function parameters
`verify`/`parse : String → Option JwtPayload` (returning `none` on failure). -/
structure JwtPayload where
  role : Option String
  sub : Option String
  deriving Repr, DecidableEq

/-- Models `decodeFakeJwt(token)`: split on `"."`; fewer than two parts yields `null`;
otherwise `JSON.parse(atob(parts[1]))` (modelled by `parse`, which returns
`none` when the parse throws). -/
def decodeFakeJwt (parse : String → Option JwtPayload) (token : String) :
    Option JwtPayload :=
  match token.splitOn "." with
  | _ :: p1 :: _ => parse p1
  | _ => none

/-- Payload resolution of the middleware:
`let payload = token && verifyJwt(token); if (!payload) payload = decodeFakeJwt(token)`.
A missing or empty token short-circuits the `&&`; `decodeFakeJwt(undefined)`
throws inside its `try` and yields `null`. -/
def credPayload (verify parse : String → Option JwtPayload) (token : Option String) :
    Option JwtPayload :=
  let p0 : Option JwtPayload :=
    match token with
    | none => none
    | some t => if t = "" then none else verify t
  match p0 with
  | some p => some p
  | none =>
    match token with
    | some t => decodeFakeJwt parse t
    | none => none

/-- The `ns.use` middleware: resolve the payload, reject with `Unauthorized`
(`none`) when it is missing or its `role`/`sub` fields are falsy, otherwise
bind `socket.data` (`role === "user"` binds a user; any other role binds a
device). -/
def authMiddleware (verify parse : String → Option JwtPayload) (token : Option String) :
    Option SocketData :=
  match credPayload verify parse token with
  | none => none
  | some p =>
    if jsTruthy p.role && jsTruthy p.sub then
      if p.role = some "user" then some (.user (jsStr p.sub))
      else some (.device (jsStr p.sub))
    else none

/-! ### Realtime event handlers -/

/-- A push emitted by a handler: the target room and the event payload. -/
inductive Event
  | live (p : PositionReport)
  | permissionAsk (userId vehicleId : String) (ts : Nat)
  | granted (vehicleId userId : Option String)

/-- An acknowledgement object: `{ ok }`, `{ ok, error }` or `{ ok, msg }`. -/
structure Ack where
  ok : Bool
  error : Option String := none
  msg : Option String := none
  deriving Repr, DecidableEq

/-- The `location:update` payload `{ vehicleId, lat, lng, speed }`; any field
the device omits is `undefined`, only `vehicleId` is ever looked at as a key. -/
structure UpdatePayload where
  vehicleId : Option String
  lat : Float
  lng : Float
  speed : Float

/-- The report `{ vehicleId, lat, lng, speed, ts }` built by the handler. -/
def mkReport (d : UpdatePayload) (ts : Nat) : PositionReport :=
  ⟨d.vehicleId, d.lat, d.lng, d.speed, ts⟩

/-- Models `acceptedViewers`: `getJSON(paths.vehPerm(vehicleId))` with fallback `{}`,
then `vehPerm.accepted || []`. -/
def acceptedViewers (st : Store) (v : String) : List String :=
  match st.vehPerm v with
  | some d => d.accepted
  | none => []

/-- The `location:update` handler: only devices may send; stamp `ts := now`;
write the current document and the history record; read the vehicle's accepted
set and emit `location:live` to each accepted user's room; ack `{ ok: true }`.
Returns the new store, the emitted pushes and the ack. -/
def locationUpdate (sock : SocketData) (st : Store) (data : UpdatePayload) (now : Nat) :
    Store × List (String × Event) × Ack :=
  match sock with
  | .user _ => (st, [], { ok := false, error := some "Only devices can send" })
  | .device _ =>
    let v := jsStr data.vehicleId
    let payload := mkReport data now
    let st' : Store :=
      { st with
        current := fun k => if k = v then some payload else st.current k,
        history := fun k t => if k = v ∧ t = now then some payload else st.history k t }
    let ems := (acceptedViewers st' v).map fun uid => ("user:" ++ uid, Event.live payload)
    (st', ems, { ok := true })

/-- The `location:request` payload `{ vehicleId }`. -/
structure RequestPayload where
  vehicleId : Option String

/-- The `location:request` handler: only users may request; a falsy
`vehicleId` throws `"vehicleId required"` before any store access; otherwise
`updatePermission(vehicleId, userId, "pending")`, then notify the device room
and ack `{ ok: true, msg: "Permission request sent" }`. -/
def locationRequest (sock : SocketData) (st : Store) (data : RequestPayload) (now : Nat) :
    Store × List (String × Event) × Ack :=
  match sock with
  | .device _ => (st, [], { ok := false, error := some "Only users can request" })
  | .user uid =>
    if jsTruthy data.vehicleId then
      let v := jsStr data.vehicleId
      let st' := updatePermission st v uid "pending"
      (st', [("vehicle:" ++ v, Event.permissionAsk uid v now)],
        { ok := true, msg := some "Permission request sent" })
    else (st, [], { ok := false, error := some "vehicleId required" })

/-- The `permission:granted` payload `{ userId, vehicleId }`. -/
structure GrantPayload where
  userId : Option String
  vehicleId : Option String

/-- The `permission:granted` handler: only devices may approve;
`updatePermission(vehicleId, userId, "accepted")` (keys render `undefined`
fields as the literal `"undefined"`), then push `permission:granted` to the
user's room and ack `{ ok: true }`. -/
def permissionGranted (sock : SocketData) (st : Store) (data : GrantPayload) :
    Store × List (String × Event) × Ack :=
  match sock with
  | .user _ => (st, [], { ok := false, error := some "Only devices can approve" })
  | .device _ =>
    let u := jsStr data.userId
    let v := jsStr data.vehicleId
    let st' := updatePermission st v u "accepted"
    (st', [("user:" ++ u, Event.granted data.vehicleId data.userId)], { ok := true })

/-! ### History query (`GET /api/history/:vehicleId`) -/

/-- Decimal value of a digit string, as extracted by the key regex. -/
def digitsVal (ds : List Char) : Nat :=
  ds.foldl (fun a c => 10 * a + (c.toNat - '0'.toNat)) 0

/-- Models `cs.match(/\/(\d+)\.json$/)` on a key's character list: the key must end
in `".json"` preceded by a maximal nonempty digit run preceded by `'/'`;
returns `Number(match[1])`. -/
def extractTsL (cs : List Char) : Option Nat :=
  match cs.reverse with
  | 'n' :: 'o' :: 's' :: 'j' :: '.' :: rest =>
    let ds := rest.takeWhile Char.isDigit
    if ds ≠ [] ∧ (rest.drop ds.length).head? = some '/' then some (digitsVal ds.reverse)
    else none
  | _ => none

/-- Models `key.match(/\/(\d+)\.json$/)`, applied to the key string's characters. -/
def extractTs (key : String) : Option Nat :=
  extractTsL key.data

/-- Models `(!from || ts >= from)` — `from` is `null` when absent, and `0` is falsy. -/
def fromOk : Option Nat → Nat → Bool
  | none, _ => true
  | some f, ts => f == 0 || decide (f ≤ ts)

/-- Models `(!to || ts <= to)` — `to` is `null` when absent, and `0` is falsy. -/
def toOk : Option Nat → Nat → Bool
  | none, _ => true
  | some t, ts => t == 0 || decide (ts ≤ t)

/-- The listing-and-filter phase: over the full (pagination-exhausted) key
listing under `vehicles/{v}/history/`, keep the keys matching the regex whose
embedded timestamp passes the bounds, paired with that timestamp. -/
def matchedKeys (listing : List String) (fr toB : Option Nat) : List (String × Nat) :=
  listing.filterMap fun k =>
    match extractTs k with
    | some ts => if fromOk fr ts && toOk toB ts then some (k, ts) else none
    | none => none

/-- The comparator `(a, b) => a.ts - b.ts`. -/
def byTs (a b : String × Nat) : Prop := a.2 ≤ b.2

instance : DecidableRel byTs := fun a b => Nat.decLe a.2 b.2

instance : IsTotal (String × Nat) byTs := ⟨fun a b => Nat.le_total a.2 b.2⟩

instance : IsTrans (String × Nat) byTs := ⟨fun _ _ _ h1 h2 => Nat.le_trans h1 h2⟩

/-- Models `keys.sort((a, b) => a.ts - b.ts)`: a stable ascending sort by `ts`. -/
def sortedMatched (listing : List String) (fr toB : Option Nat) : List (String × Nat) :=
  (matchedKeys listing fr toB).insertionSort byTs

/-- Models `keys.sort(...)` then `keys.slice(-2000)`: the retained key/timestamp pairs
whose bodies the query fetches, in order. -/
def historyKeys (listing : List String) (fr toB : Option Nat) : List (String × Nat) :=
  let s := sortedMatched listing fr toB
  s.drop (s.length - 2000)

/-- The response body `data`: the parsed object bodies of the retained keys, in
retained order (`fetch` gives the stored body of each listed key). -/
def historyResults (fetch : String → PositionReport) (listing : List String)
    (fr toB : Option Nat) : List PositionReport :=
  (historyKeys listing fr toB).map fun p => fetch p.1

/-! ## Basic lemmas about the permission state machine -/

theorem mem_pushIfAbsent {l : List String} {x a : String} :
    a ∈ pushIfAbsent l x ↔ a ∈ l ∨ a = x := by
  unfold pushIfAbsent
  by_cases h : x ∈ l
  · rw [if_pos h]
    constructor
    · exact Or.inl
    · rintro (ha | rfl)
      · exact ha
      · exact h
  · rw [if_neg h]
    simp [List.mem_append]

theorem self_mem_pushIfAbsent {l : List String} {x : String} : x ∈ pushIfAbsent l x :=
  mem_pushIfAbsent.mpr (Or.inr rfl)

theorem pushIfAbsent_idem {l : List String} {x : String} :
    pushIfAbsent (pushIfAbsent l x) x = pushIfAbsent l x := by
  unfold pushIfAbsent
  rw [if_pos]
  exact self_mem_pushIfAbsent

theorem mem_filter_bne {l : List String} {x a : String} :
    a ∈ l.filter (fun u => u != x) ↔ a ∈ l ∧ a ≠ x := by
  simp [List.mem_filter]

theorem filter_bne_idem {l : List String} {x : String} :
    (l.filter (fun u => u != x)).filter (fun u => u != x) = l.filter (fun u => u != x) := by
  induction l with
  | nil => rfl
  | cons a l ih =>
    by_cases h : a = x <;> simp [List.filter_cons, h, ih]

theorem mem_pending_applyStatusDoc {doc : PermDoc} {c s a : String} :
    a ∈ (applyStatusDoc doc c s).pending ↔
      (if s = "pending" then a ∈ doc.pending ∨ a = c
       else if s = "accepted" then a ∈ doc.pending ∧ a ≠ c
       else a ∈ doc.pending) := by
  unfold applyStatusDoc
  by_cases h1 : s = "pending"
  · simp [h1, mem_pushIfAbsent]
  · by_cases h2 : s = "accepted" <;> simp [h1, h2, mem_filter_bne]

theorem mem_accepted_applyStatusDoc {doc : PermDoc} {c s a : String} :
    a ∈ (applyStatusDoc doc c s).accepted ↔
      (if s = "accepted" then a ∈ doc.accepted ∨ a = c else a ∈ doc.accepted) := by
  unfold applyStatusDoc
  by_cases h1 : s = "pending"
  · have : s ≠ "accepted" := by rw [h1]; decide
    simp [h1, this]
  · by_cases h2 : s = "accepted" <;> simp [h1, h2, mem_pushIfAbsent]

theorem getVehPerm_updatePermission (st : Store) (v u s k : String) :
    getVehPerm (updatePermission st v u s) k =
      if k = v then applyStatusDoc (getVehPerm st v) u s else getVehPerm st k := by
  by_cases h : k = v <;> simp [getVehPerm, updatePermission, h]

theorem getUserPerm_updatePermission (st : Store) (v u s k : String) :
    getUserPerm (updatePermission st v u s) k =
      if k = u then applyStatusDoc (getUserPerm st u) v s else getUserPerm st k := by
  by_cases h : k = u <;> simp [getUserPerm, updatePermission, h]

theorem updatePermission_vehPerm (st : Store) (v u s k : String) :
    (updatePermission st v u s).vehPerm k =
      if k = v then some (applyStatusDoc (getVehPerm st v) u s) else st.vehPerm k := rfl

theorem updatePermission_userPerm (st : Store) (v u s k : String) :
    (updatePermission st v u s).userPerm k =
      if k = u then some (applyStatusDoc (getUserPerm st u) v s) else st.userPerm k := rfl

/-- One `updatePermission` call preserves the two-document symmetry of every
pair: the call mutates the written vehicle document only at the written userId
and the written user document only at the written vehicleId, and it mutates
those two coherently. -/
theorem pairSync_updatePermission (st : Store) (v u s v' u' : String)
    (h : pairSync st v' u') : pairSync (updatePermission st v u s) v' u' := by
  obtain ⟨hp, ha⟩ := h
  constructor
  · rw [getVehPerm_updatePermission, getUserPerm_updatePermission]
    by_cases hv : v' = v <;> by_cases hu : u' = u <;>
      simp only [hv, hu, if_pos, if_neg, if_true, if_false, reduceIte,
        mem_pending_applyStatusDoc] <;>
      (try split_ifs) <;> simp_all
  · rw [getVehPerm_updatePermission, getUserPerm_updatePermission]
    by_cases hv : v' = v <;> by_cases hu : u' = u <;>
      simp only [hv, hu, if_pos, if_neg, if_true, if_false, reduceIte,
        mem_accepted_applyStatusDoc] <;>
      (try split_ifs) <;> simp_all

/-- C2: any interleaving-free sequence of `request`/`grant` calls preserves
the two-document symmetry invariant for every pair. -/
theorem c2_sequential_symmetry (st : Store) (h : ∀ v u, pairSync st v u)
    (ops : List PermOp) : ∀ v u, pairSync (applyOps st ops) v u := by
  induction ops generalizing st with
  | nil => exact h
  | cons op ops ih =>
    refine ih (applyOp st op) fun v u => ?_
    cases op with
    | request a b => exact pairSync_updatePermission st a b "pending" v u (h v u)
    | grant a b => exact pairSync_updatePermission st a b "accepted" v u (h v u)

theorem c2_sequential_symmetry_witness :
    (∀ v u, pairSync Store.empty v u) ∧
    (∀ v u, pairSync
      (applyOps Store.empty [PermOp.request "V1" "U1", PermOp.grant "V1" "U1"]) v u) := by
  have h : ∀ v u, pairSync Store.empty v u := fun v u => by
    simp [pairSync, getVehPerm, getUserPerm, Store.empty, PermDoc.empty]
  exact ⟨h, c2_sequential_symmetry Store.empty h _⟩

theorem applyStatusDoc_idem (doc : PermDoc) (c s : String) :
    applyStatusDoc (applyStatusDoc doc c s) c s = applyStatusDoc doc c s := by
  unfold applyStatusDoc
  by_cases h1 : s = "pending"
  · simp [h1, pushIfAbsent_idem]
  · by_cases h2 : s = "accepted"
    · simp [h1, h2, pushIfAbsent_idem, filter_bne_idem]
    · simp [h1, h2]

/-- A second `updatePermission` call with identical arguments reads back
exactly the documents the first call wrote, leaves them unchanged, and
overwrites both keys with the same values. -/
theorem updatePermission_idem (st : Store) (v u s : String) :
    updatePermission (updatePermission st v u s) v u s = updatePermission st v u s := by
  have hv' : getVehPerm (updatePermission st v u s) v
      = applyStatusDoc (getVehPerm st v) u s := by
    rw [getVehPerm_updatePermission, if_pos rfl]
  have hu' : getUserPerm (updatePermission st v u s) u
      = applyStatusDoc (getUserPerm st u) v s := by
    rw [getUserPerm_updatePermission, if_pos rfl]
  refine Store.ext ?_ ?_ rfl rfl
  · funext k
    rw [updatePermission_vehPerm, updatePermission_vehPerm, hv', applyStatusDoc_idem]
    by_cases h : k = v <;> simp [h, updatePermission_vehPerm]
  · funext k
    rw [updatePermission_userPerm, updatePermission_userPerm, hu', applyStatusDoc_idem]
    by_cases h : k = u <;> simp [h, updatePermission_userPerm]

/-- C3: `request` and `grant` are idempotent: for every starting document
state, calling `updatePermission` twice in succession with the same
`(vehicleId, userId, status)` arguments — status `"pending"` (request) or
`"accepted"` (grant) — yields the same final stored documents as calling it
once. -/
theorem c3_request_grant_idempotent (st : Store) (v u : String) :
    updatePermission (updatePermission st v u "pending") v u "pending"
        = updatePermission st v u "pending" ∧
    updatePermission (updatePermission st v u "accepted") v u "accepted"
        = updatePermission st v u "accepted" :=
  ⟨updatePermission_idem st v u "pending", updatePermission_idem st v u "accepted"⟩

/-- The conclusion of claim C4 for a start state `st`: after
`request(v, u)` (giving `st1`) and then `grant(v, u)` (giving `st2`), the pair
is out of `pending` and in `accepted` in both final documents, and neither the
intermediate state nor the final state has the pair simultaneously in a
document's `pending` and its `accepted`. -/
def grantAfterRequestOk (st : Store) (v u : String) : Prop :=
  let st1 := updatePermission st v u "pending"
  let st2 := updatePermission st1 v u "accepted"
  (u ∉ (getVehPerm st2 v).pending ∧ v ∉ (getUserPerm st2 u).pending) ∧
  (u ∈ (getVehPerm st2 v).accepted ∧ v ∈ (getUserPerm st2 u).accepted) ∧
  (¬(u ∈ (getVehPerm st1 v).pending ∧ u ∈ (getVehPerm st1 v).accepted)) ∧
  (¬(v ∈ (getUserPerm st1 u).pending ∧ v ∈ (getUserPerm st1 u).accepted)) ∧
  (¬(u ∈ (getVehPerm st2 v).pending ∧ u ∈ (getVehPerm st2 v).accepted)) ∧
  (¬(v ∈ (getUserPerm st2 u).pending ∧ v ∈ (getUserPerm st2 u).accepted))

/-- C4: from any state in which the pair is not yet accepted (the `Unknown`
and `Pending` states of the machine, where `request` then `grant` is the
specified flow), `grant` after `request` removes the pair from `pending` and
adds it to `accepted` in both documents, and no state produced by the two
calls has the pair simultaneously in a document's `pending` and `accepted`. -/
theorem c4_grant_after_request (st : Store) (v u : String)
    (h1 : u ∉ (getVehPerm st v).accepted) (h2 : v ∉ (getUserPerm st u).accepted) :
    grantAfterRequestOk st v u := by
  unfold grantAfterRequestOk
  simp [getVehPerm_updatePermission, getUserPerm_updatePermission,
    mem_pending_applyStatusDoc, mem_accepted_applyStatusDoc, h1, h2]

theorem c4_grant_after_request_witness :
    ("U1" ∉ (getVehPerm Store.empty "V1").accepted ∧
      "V1" ∉ (getUserPerm Store.empty "U1").accepted) ∧
    grantAfterRequestOk Store.empty "V1" "U1" :=
  ⟨⟨by decide, by decide⟩, c4_grant_after_request Store.empty "V1" "U1" (by decide) (by decide)⟩

/-- The conclusion of claim C9 for a start state `st` and a device connection
bound to `w`: the `permission:granted` handler invoked with payload
`{ userId: u, vehicleId: v }` acknowledges ok and adds the pair to the
accepted set of both the vehicle-keyed and the user-keyed document. -/
def grantWithoutRequestOk (st : Store) (w v u : String) : Prop :=
  let out := permissionGranted (.device w) st ⟨some u, some v⟩
  out.2.2.ok = true ∧
  u ∈ (getVehPerm out.1 v).accepted ∧ v ∈ (getUserPerm out.1 u).accepted

/-- C9: for a pair absent from both documents (never requested), `grant`
still succeeds: it acknowledges ok and adds the pair to both accepted sets. -/
theorem c9_grant_without_request (st : Store) (w v u : String)
    (h1 : u ∉ (getVehPerm st v).pending) (h2 : u ∉ (getVehPerm st v).accepted)
    (h3 : v ∉ (getUserPerm st u).pending) (h4 : v ∉ (getUserPerm st u).accepted) :
    grantWithoutRequestOk st w v u := by
  unfold grantWithoutRequestOk permissionGranted
  simp [jsStr, getVehPerm_updatePermission, getUserPerm_updatePermission,
    mem_accepted_applyStatusDoc]

theorem c9_grant_without_request_witness :
    ("U1" ∉ (getVehPerm Store.empty "V1").pending ∧
      "U1" ∉ (getVehPerm Store.empty "V1").accepted ∧
      "V1" ∉ (getUserPerm Store.empty "U1").pending ∧
      "V1" ∉ (getUserPerm Store.empty "U1").accepted) ∧
    grantWithoutRequestOk Store.empty "D1" "V1" "U1" :=
  ⟨⟨by decide, by decide, by decide, by decide⟩,
    c9_grant_without_request Store.empty "D1" "V1" "U1"
      (by decide) (by decide) (by decide) (by decide)⟩

/-! ## The location fan-out path -/

theorem string_append_left_cancel {s a b : String} (h : s ++ a = s ++ b) : a = b := by
  have h2 : (s ++ a).data = (s ++ b).data := congrArg String.data h
  obtain ⟨ds⟩ := s; obtain ⟨da⟩ := a; obtain ⟨db⟩ := b
  have h3 : ds ++ da = ds ++ db := h2
  exact congrArg String.mk (List.append_cancel_left h3)

/-- C1: a `location:update` from a device-role connection emits `location:live`
to exactly the rooms of the identities in the vehicle's `accepted` set at the
time of the read: a user room `user:<u>` receives an event iff `u` is in the
accepted set, and what it receives is the full stamped `PositionReport`. -/
theorem c1_fanout_exactly_accepted (vb : String) (st : Store) (data : UpdatePayload)
    (now : Nat) (u : String) (ev : Event) :
    ("user:" ++ u, ev) ∈ (locationUpdate (.device vb) st data now).2.1 ↔
      (u ∈ acceptedViewers st (jsStr data.vehicleId) ∧
        ev = Event.live (mkReport data now)) := by
  show ("user:" ++ u, ev)
      ∈ (acceptedViewers st (jsStr data.vehicleId)).map
          (fun uid => ("user:" ++ uid, Event.live (mkReport data now))) ↔ _
  rw [List.mem_map]
  constructor
  · rintro ⟨uid, huid, heq⟩
    have h1 : ("user:" ++ uid : String) = "user:" ++ u := congrArg Prod.fst heq
    have h2 : Event.live (mkReport data now) = ev := congrArg Prod.snd heq
    obtain rfl := string_append_left_cancel h1
    exact ⟨huid, h2.symm⟩
  · rintro ⟨hu, rfl⟩
    exact ⟨u, hu, rfl⟩

/-- C10: the effect of `location:update` and `permission:granted` is
independent of the device connection's bound vehicle identity — two device
connections bound to different vehicles produce identical store writes,
fan-out and acknowledgement for the same payload, and a `location:update`
always overwrites the current document of the vehicle named in the payload
(so a device bound as `V1` can overwrite `V2`'s state and grant access to
`V2`). -/
theorem c10_binding_independent (v1 v2 : String) (st : Store) (data : UpdatePayload)
    (now : Nat) (g : GrantPayload) :
    locationUpdate (.device v1) st data now = locationUpdate (.device v2) st data now ∧
    permissionGranted (.device v1) st g = permissionGranted (.device v2) st g ∧
    (locationUpdate (.device v1) st data now).1.current (jsStr data.vehicleId)
      = some (mkReport data now) := by
  refine ⟨rfl, rfl, ?_⟩
  show (if jsStr data.vehicleId = jsStr data.vehicleId
      then some (mkReport data now) else st.current (jsStr data.vehicleId))
    = some (mkReport data now)
  rw [if_pos rfl]

/-- The behaviour claim C8 actually exhibits on the code: a `location:request`
lacking `vehicleId` is rejected via its ack with no store write and no
emission, but a `location:update` lacking `vehicleId` is **not** rejected —
it acknowledges ok and writes the current document under the literal
`"undefined"` vehicle key. -/
theorem c8_amended_validation (uid vb : String) (st : Store) (now : Nat)
    (lat lng speed : Float) :
    locationRequest (.user uid) st ⟨none⟩ now
        = (st, [], { ok := false, error := some "vehicleId required" }) ∧
    (locationUpdate (.device vb) st ⟨none, lat, lng, speed⟩ now).2.2
        = { ok := true } ∧
    (locationUpdate (.device vb) st ⟨none, lat, lng, speed⟩ now).1.current "undefined"
        = some ⟨none, lat, lng, speed, now⟩ := by
  refine ⟨rfl, rfl, ?_⟩
  show (if ("undefined" : String) = jsStr none
      then some (mkReport ⟨none, lat, lng, speed⟩ now) else st.current "undefined")
    = some ⟨none, lat, lng, speed, now⟩
  rw [show (jsStr none : String) = "undefined" from rfl, if_pos rfl]
  rfl

/-- Counterexample to C8 as stated: a `location:update` whose payload lacks
`vehicleId` is *not* rejected via its acknowledgement — the ack is
`{ ok: true }` — and a store write *is* performed (the current document of the
literal vehicle key `"undefined"` is written). -/
theorem c8_counterexample :
    (locationUpdate (.device "V1") Store.empty ⟨none, 12.9, 77.6, 40.0⟩ 1000).2.2.ok
        = true ∧
    (locationUpdate (.device "V1") Store.empty ⟨none, 12.9, 77.6, 40.0⟩ 1000).1.current
        "undefined" ≠ none := by
  constructor
  · rfl
  · show (if ("undefined" : String) = jsStr none
        then some (mkReport ⟨none, 12.9, 77.6, 40.0⟩ 1000)
        else Store.empty.current "undefined") ≠ none
    rw [show (jsStr none : String) = "undefined" from rfl, if_pos rfl]
    exact Option.some_ne_none _

/-! ## The handshake auth gate -/

/-- C7, amended: the handshake gate accepts a connection iff the credential
resolves (via signed verification or the unsigned fallback decode) to a
payload whose `role` and `sub` fields are both truthy — regardless of what
the role string is.  Rejection yields `none`: no role binding exists. -/
theorem c7_amended_auth_gate (verify parse : String → Option JwtPayload)
    (token : Option String) :
    (authMiddleware verify parse token).isSome = true ↔
      ∃ p, credPayload verify parse token = some p ∧
        jsTruthy p.role = true ∧ jsTruthy p.sub = true := by
  unfold authMiddleware
  cases h : credPayload verify parse token with
  | none => simp
  | some p =>
    by_cases h1 : jsTruthy p.role = true <;> by_cases h2 : jsTruthy p.sub = true <;>
      by_cases hu : p.role = some "user" <;> simp [h1, h2, hu]

/-- Counterexample to C7 as stated: a credential whose signed verification
yields the payload `{ role: "admin", sub: "S1" }` is *accepted* (and bound as
a device), although its role is neither `"user"` nor `"device"` — the gate
checks only truthiness of `role`, not its value. -/
theorem c7_counterexample :
    authMiddleware (fun _ => some ⟨some "admin", some "S1"⟩) (fun _ => none)
        (some "tok") = some (SocketData.device "S1") ∧
    credPayload (fun _ => some ⟨some "admin", some "S1"⟩) (fun _ => none)
        (some "tok") = some ⟨some "admin", some "S1"⟩ ∧
    (some "admin" : Option String) ≠ some "user" ∧
    (some "admin" : Option String) ≠ some "device" := by
  refine ⟨?_, ?_, by decide, by decide⟩ <;> decide

/-! ## The history range query -/

theorem fromOk_iff (fr : Option Nat) (ts : Nat) :
    fromOk fr ts = true ↔ ∀ a, fr = some a → a ≤ ts := by
  cases fr with
  | none => simp [fromOk]
  | some f =>
    simp only [fromOk, Bool.or_eq_true, beq_iff_eq, decide_eq_true_eq]
    constructor
    · intro hh a ha
      cases ha
      rcases hh with rfl | hh
      · exact Nat.zero_le _
      · exact hh
    · intro hh
      exact Or.inr (hh f rfl)

theorem toOk_iff (toB : Option Nat) (ts : Nat) (h : toB ≠ some 0) :
    toOk toB ts = true ↔ ∀ b, toB = some b → ts ≤ b := by
  cases toB with
  | none => simp [toOk]
  | some t =>
    have ht : t ≠ 0 := fun h0 => h (by rw [h0])
    simp only [toOk, Bool.or_eq_true, beq_iff_eq, decide_eq_true_eq]
    constructor
    · intro hh b hb
      cases hb
      rcases hh with rfl | hh
      · exact absurd rfl ht
      · exact hh
    · intro hh
      exact Or.inr (hh t rfl)

theorem mem_matchedKeys {listing : List String} {fr toB : Option Nat} {k : String}
    {ts : Nat} :
    (k, ts) ∈ matchedKeys listing fr toB ↔
      k ∈ listing ∧ extractTs k = some ts ∧ fromOk fr ts = true ∧ toOk toB ts = true := by
  unfold matchedKeys
  rw [List.mem_filterMap]
  constructor
  · rintro ⟨a, ha, hfa⟩
    split at hfa
    · next ts' hext =>
      split at hfa
      · next hok =>
        have heq := Option.some.inj hfa
        obtain rfl : a = k := congrArg Prod.fst heq
        obtain rfl : ts' = ts := congrArg Prod.snd heq
        rw [Bool.and_eq_true] at hok
        exact ⟨ha, hext, hok.1, hok.2⟩
      · next => exact absurd hfa (by simp)
    · next => exact absurd hfa (by simp)
  · rintro ⟨hk, hext, h1, h2⟩
    exact ⟨k, hk, by simp [hext, h1, h2]⟩

theorem sortedMatched_perm (listing : List String) (fr toB : Option Nat) :
    List.Perm (sortedMatched listing fr toB) (matchedKeys listing fr toB) :=
  List.perm_insertionSort byTs _

theorem sortedMatched_map_le (listing : List String) (fr toB : Option Nat) :
    ((sortedMatched listing fr toB).map (fun p => p.2)).Pairwise (· ≤ ·) := by
  rw [List.pairwise_map]
  exact List.sorted_insertionSort byTs _

/-- C5, amended: provided the `to` bound, when present, is nonzero (the code
treats a zero bound as absent, because `0` is falsy in JS), at most 2000
records match, and the matched keys carry pairwise-distinct embedded
timestamps, the history query returns exactly the listed keys whose embedded
timestamp satisfies the inclusive bounds, in strictly ascending timestamp
order with no duplicates. -/
theorem c5_amended_history_query (listing : List String) (fr toB : Option Nat)
    (ht : toB ≠ some 0)
    (hnd : ((matchedKeys listing fr toB).map (fun p => p.2)).Nodup)
    (hcap : (matchedKeys listing fr toB).length ≤ 2000) :
    (∀ k ts, (k, ts) ∈ historyKeys listing fr toB ↔
      (k ∈ listing ∧ extractTs k = some ts ∧
        (∀ a, fr = some a → a ≤ ts) ∧ (∀ b, toB = some b → ts ≤ b))) ∧
    ((historyKeys listing fr toB).map (fun p => p.2)).Sorted (· < ·) := by
  have hperm := sortedMatched_perm listing fr toB
  have hlen : (sortedMatched listing fr toB).length
      = (matchedKeys listing fr toB).length := hperm.length_eq
  have hdrop : historyKeys listing fr toB = sortedMatched listing fr toB := by
    show (sortedMatched listing fr toB).drop
        ((sortedMatched listing fr toB).length - 2000) = _
    rw [hlen, Nat.sub_eq_zero_of_le hcap, List.drop_zero]
  constructor
  · intro k ts
    rw [hdrop, hperm.mem_iff, mem_matchedKeys, fromOk_iff, toOk_iff toB ts ht]
  · rw [hdrop]
    have h1 := sortedMatched_map_le listing fr toB
    have h2 : ((sortedMatched listing fr toB).map (fun p => p.2)).Nodup :=
      (hperm.map (fun p => p.2)).nodup_iff.mpr hnd
    exact (h1.and h2).imp fun h => lt_of_le_of_ne h.1 h.2

theorem c5_amended_history_query_witness :
    ((some 20 : Option Nat) ≠ some 0 ∧
      ((matchedKeys ["/b/3.json", "/a/10.json"] (some 2) (some 20)).map
        (fun p => p.2)).Nodup ∧
      (matchedKeys ["/b/3.json", "/a/10.json"] (some 2) (some 20)).length ≤ 2000) ∧
    ((∀ k ts, (k, ts) ∈ historyKeys ["/b/3.json", "/a/10.json"] (some 2) (some 20) ↔
      (k ∈ ["/b/3.json", "/a/10.json"] ∧ extractTs k = some ts ∧
        (∀ a, (some 2 : Option Nat) = some a → a ≤ ts) ∧
        (∀ b, (some 20 : Option Nat) = some b → ts ≤ b))) ∧
    ((historyKeys ["/b/3.json", "/a/10.json"] (some 2) (some 20)).map
      (fun p => p.2)).Sorted (· < ·)) :=
  ⟨⟨by decide, by decide, by decide⟩,
    c5_amended_history_query ["/b/3.json", "/a/10.json"] (some 2) (some 20)
      (by decide) (by decide) (by decide)⟩

/-- Counterexample to C5 as stated: with the present inclusive bound
`to = 0`, the claim requires that only records with `ts ≤ 0` be returned, but
the code treats the `0` bound as absent (`!to` is true in JS when `to` is
`0`), so the record with embedded timestamp `5` is returned. -/
theorem c5_counterexample :
    historyKeys ["/5.json"] none (some 0) = [("/5.json", 5)] ∧ ¬(5 ≤ 0) :=
  ⟨by decide, by decide⟩

/-- C6: when more than 2000 records match the bounds (and the matched keys
carry pairwise-distinct embedded timestamps), the query returns exactly 2000
records — the tail of the ascending-sorted sequence: every omitted matched
record's timestamp is strictly below every returned one — still in strictly
ascending order. -/
theorem c6_cap_most_recent (listing : List String) (fr toB : Option Nat)
    (hch : ((sortedMatched listing fr toB).map (fun p => p.2)).Pairwise (· < ·))
    (hlen : 2000 < (matchedKeys listing fr toB).length) :
    (historyKeys listing fr toB).length = 2000 ∧
    ((historyKeys listing fr toB).map (fun p => p.2)).Sorted (· < ·) ∧
    (∀ p ∈ historyKeys listing fr toB, p ∈ matchedKeys listing fr toB) ∧
    (∀ p ∈ matchedKeys listing fr toB, p ∉ historyKeys listing fr toB →
      ∀ q ∈ historyKeys listing fr toB, p.2 < q.2) := by
  have hperm := sortedMatched_perm listing fr toB
  have hlen2 : (sortedMatched listing fr toB).length
      = (matchedKeys listing fr toB).length := hperm.length_eq
  have hpwmap : ((sortedMatched listing fr toB).map (fun p => p.2)).Pairwise (· < ·) :=
    hch
  have hpw : (sortedMatched listing fr toB).Pairwise (fun a b => a.2 < b.2) :=
    List.pairwise_map.mp hpwmap
  have hdrop : historyKeys listing fr toB
      = (sortedMatched listing fr toB).drop
          ((sortedMatched listing fr toB).length - 2000) := rfl
  refine ⟨?_, ?_, ?_, ?_⟩
  · rw [hdrop, List.length_drop]
    omega
  · rw [hdrop, List.map_drop]
    exact hpwmap.sublist (List.drop_sublist _ _)
  · intro p hp
    rw [hdrop] at hp
    exact hperm.mem_iff.mp (List.drop_subset _ _ hp)
  · intro p hpm hpnot q hq
    have hps : p ∈ sortedMatched listing fr toB := hperm.mem_iff.mpr hpm
    rw [hdrop] at hpnot hq
    have hsplit := List.take_append_drop
      ((sortedMatched listing fr toB).length - 2000) (sortedMatched listing fr toB)
    have hptake : p ∈ (sortedMatched listing fr toB).take
        ((sortedMatched listing fr toB).length - 2000) := by
      rcases List.mem_append.mp (show p ∈ _ ++ _ by rw [hsplit]; exact hps) with h | h
      · exact h
      · exact absurd h hpnot
    have hpw2 : ((sortedMatched listing fr toB).take
          ((sortedMatched listing fr toB).length - 2000) ++
        (sortedMatched listing fr toB).drop
          ((sortedMatched listing fr toB).length - 2000)).Pairwise
        (fun a b => a.2 < b.2) := by
      rw [hsplit]
      exact hpw
    exact (List.pairwise_append.mp hpw2).2.2 p hptake q hq

/-! ### A concrete over-2000-record listing for the cap witness

A paginated listing of 2001 well-formed history keys with fixed-width
four-digit timestamps `0000 … 2000`; the facts the cap theorem needs about it
are proved structurally (the listing is far too large to evaluate inside the
kernel). -/

/-- The decimal digit characters. -/
def digitChar : Nat → Char
  | 0 => '0'
  | 1 => '1'
  | 2 => '2'
  | 3 => '3'
  | 4 => '4'
  | 5 => '5'
  | 6 => '6'
  | 7 => '7'
  | 8 => '8'
  | _ => '9'

/-- A history key `/dddd.json` with a four-digit zero-padded timestamp. -/
def key4 (i : Nat) : String :=
  ⟨'/' :: digitChar (i / 1000) :: digitChar (i % 1000 / 100) ::
    digitChar (i % 100 / 10) :: digitChar (i % 10) :: ['.', 'j', 's', 'o', 'n']⟩

/-- The 2001-key listing used to witness the cap behaviour. -/
def c6Listing : List String := (List.range 2001).map key4

theorem digitChar_isDigit (n : Nat) (h : n < 10) : (digitChar n).isDigit = true := by
  interval_cases n <;> decide

theorem digitChar_toNat (n : Nat) (h : n < 10) : (digitChar n).toNat = 48 + n := by
  interval_cases n <;> decide

theorem takeWhile_all_append_stop {p : Char → Bool} {l : List Char}
    (hl : ∀ c ∈ l, p c = true) {x : Char} (hx : p x = false) (r : List Char) :
    (l ++ x :: r).takeWhile p = l := by
  induction l with
  | nil => simp [List.takeWhile_cons, hx]
  | cons a t ih =>
    simp [List.takeWhile_cons, hl a (List.mem_cons_self a t),
      ih fun c hc => hl c (List.mem_cons_of_mem a hc)]

/-- The regex extraction succeeds on any key of the shape
`'/' ++ digits ++ ".json"` with a nonempty all-digit run, and returns the
run's decimal value. -/
theorem extractTsL_digits (ds : List Char) (hne : ds ≠ [])
    (hdig : ∀ c ∈ ds, c.isDigit = true) :
    extractTsL ('/' :: ds ++ ['.', 'j', 's', 'o', 'n']) = some (digitsVal ds) := by
  have hrev : ('/' :: ds ++ ['.', 'j', 's', 'o', 'n']).reverse
      = 'n' :: 'o' :: 's' :: 'j' :: '.' :: (ds.reverse ++ ['/']) := by
    simp
  have hdig' : ∀ c ∈ ds.reverse, c.isDigit = true := fun c hc =>
    hdig c (List.mem_reverse.mp hc)
  have htw : (ds.reverse ++ ['/']).takeWhile Char.isDigit = ds.reverse :=
    takeWhile_all_append_stop hdig' (by decide) []
  have hdr : (ds.reverse ++ ['/']).drop ds.reverse.length = ['/'] :=
    List.drop_left _ _
  unfold extractTsL
  rw [hrev]
  simp [htw, hdr, List.reverse_eq_nil_iff, hne, List.reverse_reverse]

theorem digitsVal_four (a b c d : Nat) (ha : a < 10) (hb : b < 10) (hc : c < 10)
    (hd : d < 10) :
    digitsVal [digitChar a, digitChar b, digitChar c, digitChar d]
      = ((a * 10 + b) * 10 + c) * 10 + d := by
  have h0 : ('0' : Char).toNat = 48 := rfl
  simp only [digitsVal, List.foldl, digitChar_toNat a ha, digitChar_toNat b hb,
    digitChar_toNat c hc, digitChar_toNat d hd, h0]
  omega

theorem extractTs_key4 (i : Nat) (h : i < 10000) : extractTs (key4 i) = some i := by
  have hds : ∀ c ∈ [digitChar (i / 1000), digitChar (i % 1000 / 100),
      digitChar (i % 100 / 10), digitChar (i % 10)], c.isDigit = true := by
    intro c hc
    simp only [List.mem_cons, List.not_mem_nil, or_false] at hc
    rcases hc with rfl | rfl | rfl | rfl
    · exact digitChar_isDigit _ (by omega)
    · exact digitChar_isDigit _ (by omega)
    · exact digitChar_isDigit _ (by omega)
    · exact digitChar_isDigit _ (by omega)
  show extractTsL ('/' :: [digitChar (i / 1000), digitChar (i % 1000 / 100),
    digitChar (i % 100 / 10), digitChar (i % 10)] ++ ['.', 'j', 's', 'o', 'n']) = some i
  rw [extractTsL_digits _ (by simp) hds,
    digitsVal_four _ _ _ _ (by omega) (by omega) (by omega) (by omega)]
  exact congrArg some (by omega)

theorem filterMap_eq_map_of {α β : Type} (f : α → Option β) (g : α → β)
    (l : List α) (h : ∀ a ∈ l, f a = some (g a)) : l.filterMap f = l.map g := by
  induction l with
  | nil => rfl
  | cons a t ih =>
    have h1 := h a (List.mem_cons_self a t)
    have h2 := ih fun x hx => h x (List.mem_cons_of_mem a hx)
    simp [List.filterMap_cons, h1, h2]

theorem matchedKeys_c6Listing :
    matchedKeys c6Listing none none = (List.range 2001).map fun i => (key4 i, i) := by
  unfold matchedKeys c6Listing
  rw [List.filterMap_map]
  apply filterMap_eq_map_of
  intro i hi
  have hi' : i < 2001 := List.mem_range.mp hi
  have hext : extractTs (key4 i) = some i := extractTs_key4 i (by omega)
  simp [Function.comp, extractTs] at hext ⊢
  simp [hext, fromOk, toOk]

theorem sortedMatched_c6Listing :
    sortedMatched c6Listing none none = (List.range 2001).map fun i => (key4 i, i) := by
  unfold sortedMatched
  rw [matchedKeys_c6Listing]
  exact List.Sorted.insertionSort_eq
    (List.pairwise_map.mpr ((List.pairwise_lt_range 2001).imp Nat.le_of_lt))

theorem c6Listing_pairwise :
    ((sortedMatched c6Listing none none).map (fun p => p.2)).Pairwise (· < ·) := by
  rw [sortedMatched_c6Listing, List.map_map,
    show ((fun p : String × Nat => p.2) ∘ fun i => (key4 i, i)) = id from rfl,
    List.map_id]
  exact List.pairwise_lt_range 2001

theorem c6Listing_len : 2000 < (matchedKeys c6Listing none none).length := by
  rw [matchedKeys_c6Listing, List.length_map, List.length_range]
  omega

theorem c6_cap_most_recent_witness :
    (((sortedMatched c6Listing none none).map (fun p => p.2)).Pairwise (· < ·) ∧
      2000 < (matchedKeys c6Listing none none).length) ∧
    ((historyKeys c6Listing none none).length = 2000 ∧
      ((historyKeys c6Listing none none).map (fun p => p.2)).Sorted (· < ·) ∧
      (∀ p ∈ historyKeys c6Listing none none, p ∈ matchedKeys c6Listing none none) ∧
      (∀ p ∈ matchedKeys c6Listing none none, p ∉ historyKeys c6Listing none none →
        ∀ q ∈ historyKeys c6Listing none none, p.2 < q.2)) :=
  ⟨⟨c6Listing_pairwise, c6Listing_len⟩,
    c6_cap_most_recent c6Listing none none c6Listing_pairwise c6Listing_len⟩

end VehicleTrack
